import Mathlib

/-!
Verification of the package-diagnosis pipeline of `pipoke`
(`pipoke/pkg_diagnosis.py`), via a shallow embedding.

Conventions of the embedding:

* A pip environment is modelled by the list of installed package names.
* Side effects (installed-status checks, pip install/uninstall invocations,
  diagnosis invocations, error-logger invocations) are recorded in an event
  trace; the claims about ordering and frame effects are statements about
  that trace.
* A diagnosis function `(pkg_name : str) -> result` that may raise is
  modelled as `String → Except String α` (`Except.error` is a raised
  Python `Exception`).
* Python `dict` construction from a sequence of pairs (first-occurrence
  key order, last value wins) is modelled by `pyDict`.
* pip install/uninstall subprocess calls are modelled as succeeding on the
  environment; the source swallows their failures, and every claim about
  them is about which calls are *invoked*, which the trace records.
-/

namespace Pipoke

/-- One observable side effect of the orchestrator. -/
inductive Event where
  | checkInstalled (pkg : String) (result : Bool)
  | install (pkg : String)
  | uninstall (pkg : String)
  | runDiag (pkg : String) (diagName : String)
  | logError (pkg : String) (diagName : String) (err : String)
  deriving DecidableEq

/-- Events produced while iterating `generate_diagnoses` (diagnosis
invocations and error-logger invocations). -/
def Event.isDiagEvent : Event → Bool
  | .runDiag _ _ => true
  | .logError _ _ _ => true
  | _ => false

/-- A diagnosis function: applied to a package name, either returns a result
or raises (`Except.error`). -/
abbrev Diag (α : Type) := String → Except String α

/-- Python `d[k] = v` on an association list kept in insertion order:
if the key is present its value is replaced in place, otherwise the pair is
appended. -/
def pyDictInsert {β : Type} (l : List (String × β)) (k : String) (v : β) :
    List (String × β) :=
  if l.any (fun p => p.1 == k) then
    l.map (fun p => if p.1 == k then (k, v) else p)
  else l ++ [(k, v)]

/-- Python `dict(pairs)`: first-occurrence key order, last value wins. -/
def pyDict {β : Type} (l : List (String × β)) : List (String × β) :=
  l.foldl (fun acc p => pyDictInsert acc p.1 p.2) []

/-- One item of the heterogeneous `diagnoses` iterable accepted by
`_resolve_diagnoses`: either a bare name string (looked up in the registry)
or an explicit `(name, diagnosis_func)` pair. -/
inductive DiagSpec (α : Type) where
  | name (s : String)
  | pair (s : String) (f : Diag α)

/-- The `diagnoses` argument of `_resolve_diagnoses`: a `Mapping`
(used as-is), a single name string, or an iterable of names and pairs. -/
inductive DiagnosesArg (α : Type) where
  | mapping (m : List (String × Diag α))
  | single (s : String)
  | items (l : List (DiagSpec α))

/-- The bare name strings occurring in a `diagnoses` argument (the ones that
`_resolve_diagnoses` looks up in the registry). -/
def DiagnosesArg.bareNames {α : Type} : DiagnosesArg α → List String
  | .mapping _ => []
  | .single s => [s]
  | .items l =>
      l.filterMap (fun d => match d with
        | DiagSpec.name s => some s
        | DiagSpec.pair _ _ => none)

/-- The generator `resolve_string_diagnoses` inside `_resolve_diagnoses`, as
consumed by `dict(...)`: bare names are looked up in the registry,
`ValueError("Unknown diagnosis name: ...")` is raised at the first unknown
name, pairs pass through. -/
def resolve_string_diagnoses {α : Type} (registry : List (String × Diag α)) :
    List (DiagSpec α) → Except String (List (String × Diag α))
  | [] => Except.ok []
  | DiagSpec.name s :: rest =>
      match registry.lookup s with
      | some f =>
          (resolve_string_diagnoses registry rest).map (fun l => (s, f) :: l)
      | none => Except.error ("Unknown diagnosis name: " ++ s)
  | DiagSpec.pair s f :: rest =>
      (resolve_string_diagnoses registry rest).map (fun l => (s, f) :: l)

/-- `_resolve_diagnoses`: a `Mapping` is returned as-is; a single string is
wrapped into a one-element list; any other iterable is resolved against the
process-wide registry (here a parameter) and collected with `dict(...)`. -/
def _resolve_diagnoses {α : Type} (registry : List (String × Diag α)) :
    DiagnosesArg α → Except String (List (String × Diag α))
  | DiagnosesArg.mapping m => Except.ok m
  | DiagnosesArg.single s =>
      (resolve_string_diagnoses registry [DiagSpec.name s]).map pyDict
  | DiagnosesArg.items l =>
      (resolve_string_diagnoses registry l).map pyDict

/-- The `pkgs` argument of `diagnose_pkgs`: a literal list, or a string
(either a path of an existing file or a whitespace-separated list). -/
inductive PkgsArg where
  | list (l : List String)
  | str (s : String)

/-- Python whitespace for `str.split()` with no separator. -/
def isPySpace (c : Char) : Bool :=
  c == ' ' || c == '\t' || c == '\n' || c == '\r' ||
    c == Char.ofNat 11 || c == Char.ofNat 12

/-- Worker for `str.split()`: split at runs of whitespace, dropping empty
pieces; `acc` holds the (reversed) current piece. -/
def splitWsAux : List Char → List Char → List (List Char)
  | [], acc => if acc.isEmpty then [] else [acc.reverse]
  | c :: cs, acc =>
      if isPySpace c then
        if acc.isEmpty then splitWsAux cs []
        else acc.reverse :: splitWsAux cs []
      else splitWsAux cs (c :: acc)

/-- Python `s.split()` (no separator): whitespace runs separate the pieces,
no empty pieces are produced. -/
def pyWhitespaceSplit (s : String) : List String :=
  (splitWsAux s.toList []).map String.mk

/-- Worker for `f.readlines()`: cut after every newline character, keeping
the newline at the end of each piece; `acc` holds the (reversed) current
line. -/
def readlinesAux : List Char → List Char → List String
  | [], acc => if acc.isEmpty then [] else [String.mk acc.reverse]
  | c :: cs, acc =>
      if c == '\n' then String.mk ((c :: acc).reverse) :: readlinesAux cs []
      else readlinesAux cs (c :: acc)

/-- Python `open(path).readlines()` on the file content: one string per line
of the content, each line keeping its terminating newline (the final line
may lack one). -/
def pyReadlines (content : String) : List String :=
  readlinesAux content.toList []

/-- `_resolve_packages`: a non-string iterable is returned unchanged; a
string that is a path of an existing file (the file system is modelled as an
association list from path to content) is read with `readlines()`; any other
string is split on whitespace. -/
def _resolve_packages (fs : List (String × String)) : PkgsArg → List String
  | PkgsArg.list l => l
  | PkgsArg.str s =>
      match fs.lookup s with
      | some content => pyReadlines content
      | none => pyWhitespaceSplit s

/-- `generate_diagnoses` after its `diagnoses = dict(diagnoses)` step: run
each diagnosis on the package name in order; a result is yielded as a
`(name, result)` pair, a raised exception is caught, logged through the
error logger (recorded as a `logError` event carrying the package name, the
diagnosis name and the error, the three data interpolated into the logged
message) and nothing is yielded for that name. -/
def generate_diagnoses_aux {α : Type} (pkg_name : String) :
    List (String × Diag α) → List (String × α) × List Event
  | [] => ([], [])
  | (dname, diagnosis) :: rest =>
      let r := generate_diagnoses_aux pkg_name rest
      match diagnosis pkg_name with
      | Except.ok v =>
          ((dname, v) :: r.1, Event.runDiag pkg_name dname :: r.2)
      | Except.error e =>
          (r.1,
           Event.runDiag pkg_name dname ::
             Event.logError pkg_name dname e :: r.2)

/-- `generate_diagnoses(pkg_name, diagnoses)`: the yielded `(name, result)`
pairs together with the trace of diagnosis and error-logger invocations. -/
def generate_diagnoses {α : Type} (pkg_name : String)
    (diagnoses : List (String × Diag α)) : List (String × α) × List Event :=
  generate_diagnoses_aux pkg_name (pyDict diagnoses)

/-- The `manage_installation` context manager wrapped around a body (the
body's value and trace are its first argument pair): when the flag is set,
check whether the package is installed, install it if absent, run the body,
and afterwards (the `finally` clause, on every exit path of the source)
uninstall it when it was not installed beforehand. Returns the body's value,
the full trace, and the final environment. -/
def manage_installation {β : Type} (env : List String) (pkg_name : String)
    (install_pkg_if_not_installed : Bool) (body : β × List Event) :
    β × List Event × List String :=
  let pkg_was_in_environment : Bool :=
    install_pkg_if_not_installed && env.contains pkg_name
  let preTrace : List Event :=
    if install_pkg_if_not_installed then
      if env.contains pkg_name then [Event.checkInstalled pkg_name true]
      else [Event.checkInstalled pkg_name false, Event.install pkg_name]
    else []
  let env1 : List String :=
    if install_pkg_if_not_installed && !(env.contains pkg_name) then
      env ++ [pkg_name]
    else env
  let doUninstall : Bool :=
    install_pkg_if_not_installed && !pkg_was_in_environment
  let postTrace : List Event :=
    if doUninstall then [Event.uninstall pkg_name] else []
  let env2 : List String := if doUninstall then env1.erase pkg_name else env1
  (body.1, preTrace ++ body.2 ++ postTrace, env2)

/-- `diagnose_pkg`: resolve the diagnoses (raising on an unknown name before
anything else happens), then run `dict(generate_diagnoses(...))` inside the
`manage_installation` context. -/
def diagnose_pkg {α : Type} (registry : List (String × Diag α))
    (env : List String) (pkg_name : String) (diagnoses : DiagnosesArg α)
    (install_pkg_if_not_installed : Bool) :
    Except String (List (String × α)) × List Event × List String :=
  match _resolve_diagnoses registry diagnoses with
  | Except.error e => (Except.error e, [], env)
  | Except.ok ds =>
      let r := manage_installation env pkg_name install_pkg_if_not_installed
        (generate_diagnoses pkg_name ds)
      (Except.ok (pyDict r.1), r.2.1, r.2.2)

/-- `diagnose_pkgs` with the default `dict` store factory: resolve the
package list, resolve the diagnoses (an unknown name raises here, before any
package is touched), then for each package in order run `diagnose_pkg` with
its default `install_pkg_if_not_installed=True` and write the result into
the store under the package name. -/
def diagnose_pkgs {α : Type} (registry : List (String × Diag α))
    (fs : List (String × String)) (env : List String) (pkgs : PkgsArg)
    (diagnoses : DiagnosesArg α) :
    Except String (List (String × List (String × α))) × List Event ×
      List String :=
  let pkgList := _resolve_packages fs pkgs
  match _resolve_diagnoses registry diagnoses with
  | Except.error e => (Except.error e, [], env)
  | Except.ok ds =>
      let r := pkgList.foldl
        (fun acc pkg =>
          let r := diagnose_pkg registry acc.2.2 pkg
            (DiagnosesArg.mapping ds) true
          (pyDictInsert acc.1 pkg
             (match r.1 with
              | Except.ok d => d
              | Except.error _ => []),
           acc.2.1 ++ r.2.1, r.2.2))
        (([] : List (String × List (String × α))), ([] : List Event), env)
      (Except.ok r.1, r.2.1, r.2.2)

/-! ## The test diagnosis `run_pkg_tests` -/

/-- A raised Python exception, as relevant to `run_pkg_tests`: the
`pkg_resources.DistributionNotFound` caught by its outer handler, the
`subprocess.CalledProcessError` caught by its pytest handler, or any other
`Exception`. -/
inductive PyExc where
  | distributionNotFound
  | calledProcessError
  | exc (msg : String)
  deriving DecidableEq

/-- `run_pkg_tests`, with the three external sub-probes (doctest execution,
unittest discovery and execution, pytest as a subprocess) and the
distribution lookup modelled as oracles that either return the sub-result
that the source would store or raise. Control flow of the source: the
doctest probe is wrapped in `try/except Exception: pass`; the unittest probe
is not guarded at all; the pytest probe is wrapped in
`except subprocess.CalledProcessError or Exception`, which in Python
evaluates to `except subprocess.CalledProcessError` alone; the whole body is
wrapped in `except pkg_resources.DistributionNotFound: return None`. -/
def run_pkg_tests {α : Type} (dist : Except PyExc Unit)
    (doctestProbe unittestProbe pytestProbe : Except PyExc α) :
    Except PyExc (Option (List (String × α))) :=
  let body : Except PyExc (List (String × α)) :=
    match dist with
    | Except.error e => Except.error e
    | Except.ok _ =>
        let d1 : List (String × α) :=
          match doctestProbe with
          | Except.ok v => pyDictInsert [] ("doctest_results") v
          | Except.error _ => []
        match unittestProbe with
        | Except.error e => Except.error e
        | Except.ok v =>
            let d2 := pyDictInsert d1 ("unittest_results") v
            match pytestProbe with
            | Except.ok w => Except.ok (pyDictInsert d2 ("pytest_results") w)
            | Except.error PyExc.calledProcessError => Except.ok d2
            | Except.error e => Except.error e
  match body with
  | Except.ok d => Except.ok (some d)
  | Except.error PyExc.distributionNotFound => Except.ok none
  | Except.error e => Except.error e

/-! ## The package-index metadata diagnosis -/

/-- A Python value as needed by `dflt_json_info_extractor`: the JSON data of
the index response and the values the extractor builds from it. -/
inductive PyVal where
  | none
  | str (s : String)
  | num (n : Nat)
  | list (l : List PyVal)
  | dict (l : List (String × PyVal))

/-- Cut a dotted path string at the dots. -/
def splitPathAux : List Char → List Char → List String
  | [], acc => [String.mk acc.reverse]
  | c :: cs, acc =>
      if c == '.' then String.mk acc.reverse :: splitPathAux cs []
      else splitPathAux cs (c :: acc)

/-- `"info.version"` ↦ `["info", "version"]`. -/
def splitPath (s : String) : List String :=
  splitPathAux s.toList []

/-- Structured path lookup: walk nested dicts along the path keys. -/
def pathGet : PyVal → List String → Option PyVal
  | v, [] => some v
  | PyVal.dict d, k :: ks =>
      match d.lookup k with
      | some v => pathGet v ks
      | Option.none => Option.none
  | _, _ :: _ => Option.none

/-- Modelled from the spec: `dol.path_get.paths_getter` applied with
`on_error=path_get.return_none_on_error`, an external collaborator whose
source is not part of this repository. Per the spec it extracts a fixed set
of fields by structured path lookup, "tolerating missing paths by
substituting an absent marker per field": the result maps every requested
dotted path to its value, with the absent marker (`None`) substituted when
the lookup fails. -/
def paths_getter (paths : List String) (obj : PyVal) :
    List (String × PyVal) :=
  paths.map (fun p => (p, (pathGet obj (splitPath p)).getD PyVal.none))

/-- Python `len(v)`: defined on sequences and mappings, a `TypeError` on
`None` or a number. -/
def pyLen : PyVal → Except String Nat
  | PyVal.str s => Except.ok s.length
  | PyVal.list l => Except.ok l.length
  | PyVal.dict d => Except.ok d.length
  | _ => Except.error ("TypeError: object has no len")

/-- Python truthiness of a value. -/
def pyTruthy : PyVal → Bool
  | PyVal.none => false
  | PyVal.str s => !(s == "")
  | PyVal.num n => !(n == 0)
  | PyVal.list l => !l.isEmpty
  | PyVal.dict d => !d.isEmpty

/-- Python `obj[key]` for a dict and a string key (`KeyError` when absent,
`TypeError` otherwise). -/
def pySubscript : PyVal → PyVal → Except String PyVal
  | PyVal.dict d, PyVal.str k =>
      match d.lookup k with
      | some v => Except.ok v
      | Option.none => Except.error ("KeyError: " ++ k)
  | _, _ => Except.error ("TypeError: not subscriptable")

/-- Python `next(iter(v), None)`. -/
def pyFirst : PyVal → Except String PyVal
  | PyVal.list [] => Except.ok PyVal.none
  | PyVal.list (x :: _) => Except.ok x
  | PyVal.dict [] => Except.ok PyVal.none
  | PyVal.dict ((k, _) :: _) => Except.ok (PyVal.str k)
  | PyVal.str s =>
      match s.toList with
      | [] => Except.ok PyVal.none
      | c :: _ => Except.ok (PyVal.str (String.mk [c]))
  | _ => Except.error ("TypeError: not iterable")

/-- Python `v.get(key, None)` for a dict (`AttributeError` otherwise). -/
def pyDictGet : PyVal → String → Except String PyVal
  | PyVal.dict d, k => Except.ok ((d.lookup k).getD PyVal.none)
  | _, _ => Except.error ("AttributeError: no attribute get")

/-- The response of `GET https://pypi.python.org/pypi/{package}/json` for a
given package: a status code and the parsed JSON body. -/
structure HttpResponse where
  status_code : Nat
  body : PyVal

/-- `json_package_info`: return `response.json()` on a 200 response and an
empty dict on any other status, raising nothing either way. -/
def json_package_info (response : HttpResponse) : PyVal :=
  if response.status_code == 200 then response.body else PyVal.dict []

/-- The dotted paths requested by `dflt_json_info_extractor`. -/
def infoPaths : List String :=
  [("info.description"), ("info.summary"), ("info.author"),
   ("info.version"), ("info.project_urls"), ("info.home_page"),
   ("releases")]

/-- `dflt_json_info_extractor` on the index response for the package: fetch
the JSON info (via `json_package_info`), extract the fixed paths with the
`paths_getter` (absent marker per missing field), pop `releases` (defaulting
to the empty tuple only if the key were absent), store
`len(releases)` as `n_releases` (a `TypeError` when `releases` is the
absent marker), and when `releases` is truthy record the size and upload
time of the first release file of the current version. -/
def dflt_json_info_extractor (response : HttpResponse) :
    Except String (List (String × PyVal)) := do
  let info_dict := json_package_info response
  let d0 := paths_getter infoPaths info_dict
  let releases := (d0.lookup ("releases")).getD (PyVal.list [])
  let d1 := d0.filter (fun p => !(p.1 == "releases"))
  let n ← pyLen releases
  let d2 := pyDictInsert d1 ("n_releases") (PyVal.num n)
  if pyTruthy releases then
    let version := (d2.lookup ("info.version")).getD PyVal.none
    let versionReleases ← pySubscript releases version
    let release ← pyFirst versionReleases
    if pyTruthy release then
      let sz ← pyDictGet release ("size")
      let d3 := pyDictInsert d2 ("last_release.size") sz
      let t ← pyDictGet release ("upload_time_iso_8601")
      pure (pyDictInsert d3 ("last_relase.upload_time_iso_8601") t)
    else
      pure d2
  else
    pure d2

/-! ## Helper lemmas -/

/-- Events that only invoke pip or query the installed state. -/
def Event.isUninstall : Event → Bool
  | .uninstall _ => true
  | _ => false

/-- Events that touch the environment's installed state (the status check
and the pip install/uninstall invocations). -/
def Event.touchesEnvironment : Event → Bool
  | .checkInstalled _ _ => true
  | .install _ => true
  | .uninstall _ => true
  | _ => false

theorem toList_mk (l : List Char) : (String.mk l).toList = l := rfl

theorem pyDictInsert_of_not_mem {β : Type} (l : List (String × β))
    (k : String) (v : β) (h : k ∉ l.map Prod.fst) :
    pyDictInsert l k v = l ++ [(k, v)] := by
  have hany : l.any (fun p => p.1 == k) = false := by
    rw [List.any_eq_false]
    intro p hp
    simp only [beq_iff_eq]
    intro hk
    exact h (hk ▸ List.mem_map_of_mem Prod.fst hp)
  simp [pyDictInsert, hany]

theorem foldl_pyDictInsert_eq_append {β : Type} :
    ∀ (l acc : List (String × β)), ((acc ++ l).map Prod.fst).Nodup →
      l.foldl (fun a p => pyDictInsert a p.1 p.2) acc = acc ++ l
  | [], acc, _ => by simp
  | p :: rest, acc, h => by
    have hk : p.1 ∉ acc.map Prod.fst := by
      intro hmem
      rw [List.map_append, List.nodup_append] at h
      exact h.2.2 hmem (by simp)
    have h2 : (((acc ++ [p]) ++ rest).map Prod.fst).Nodup := by
      simpa using h
    rw [List.foldl_cons]
    show (rest.foldl (fun a q => pyDictInsert a q.1 q.2)
      (pyDictInsert acc p.1 p.2)) = acc ++ p :: rest
    rw [pyDictInsert_of_not_mem acc p.1 p.2 hk,
      foldl_pyDictInsert_eq_append rest (acc ++ [p]) h2]
    simp

theorem pyDict_of_nodup {β : Type} (l : List (String × β))
    (h : (l.map Prod.fst).Nodup) : pyDict l = l := by
  simpa [pyDict] using foldl_pyDictInsert_eq_append l [] (by simpa using h)

theorem lookup_cons_of_ne {β : Type} (m n : String) (v : β)
    (l : List (String × β)) (h : n ≠ m) :
    ((m, v) :: l).lookup n = l.lookup n := by
  rw [List.lookup_cons]
  have hb : (n == m) = false := by simpa using h
  simp [hb]

theorem mem_of_lookup_eq_some {β : Type} :
    ∀ (l : List (String × β)) (n : String) (v : β),
      l.lookup n = some v → (n, v) ∈ l
  | [], n, v, h => by simp at h
  | (m, w) :: rest, n, v, h => by
    rw [List.lookup_cons] at h
    cases hnm : (n == m) with
    | true =>
        rw [hnm] at h
        simp only [Option.some.injEq] at h
        have : n = m := by simpa using hnm
        subst this; subst h
        exact List.mem_cons_self _ _
    | false =>
        rw [hnm] at h
        exact List.mem_cons_of_mem _ (mem_of_lookup_eq_some rest n v h)

theorem genAux_cons_ok {α : Type} (pkg m : String) (g : Diag α)
    (rest : List (String × Diag α)) (v : α) (h : g pkg = Except.ok v) :
    generate_diagnoses_aux pkg ((m, g) :: rest) =
      ((m, v) :: (generate_diagnoses_aux pkg rest).1,
       Event.runDiag pkg m :: (generate_diagnoses_aux pkg rest).2) := by
  simp [generate_diagnoses_aux, h]

theorem genAux_cons_error {α : Type} (pkg m : String) (g : Diag α)
    (rest : List (String × Diag α)) (e : String)
    (h : g pkg = Except.error e) :
    generate_diagnoses_aux pkg ((m, g) :: rest) =
      ((generate_diagnoses_aux pkg rest).1,
       Event.runDiag pkg m :: Event.logError pkg m e ::
         (generate_diagnoses_aux pkg rest).2) := by
  simp [generate_diagnoses_aux, h]

theorem genAux_trace_diag {α : Type} (pkg : String) :
    ∀ (ds : List (String × Diag α)),
      ∀ e ∈ (generate_diagnoses_aux pkg ds).2, Event.isDiagEvent e = true
  | [], e, h => by simp [generate_diagnoses_aux] at h
  | (m, g) :: rest, e, h => by
    cases hg : g pkg with
    | ok v =>
        rw [genAux_cons_ok pkg m g rest v hg] at h
        rcases List.mem_cons.mp h with h | h
        · subst h; rfl
        · exact genAux_trace_diag pkg rest e h
    | error err =>
        rw [genAux_cons_error pkg m g rest err hg] at h
        rcases List.mem_cons.mp h with h | h
        · subst h; rfl
        · rcases List.mem_cons.mp h with h | h
          · subst h; rfl
          · exact genAux_trace_diag pkg rest e h

theorem genAux_keys {α : Type} (pkg : String) :
    ∀ (ds : List (String × Diag α)) (n : String) (v : α),
      (n, v) ∈ (generate_diagnoses_aux pkg ds).1 → n ∈ ds.map Prod.fst
  | [], n, v, h => by simp [generate_diagnoses_aux] at h
  | (m, g) :: rest, n, v, h => by
    cases hg : g pkg with
    | ok w =>
        rw [genAux_cons_ok pkg m g rest w hg] at h
        rcases List.mem_cons.mp h with h | h
        · rw [Prod.mk.injEq] at h
          simp [h.1]
        · exact List.mem_cons_of_mem _ (genAux_keys pkg rest n v h)
    | error err =>
        rw [genAux_cons_error pkg m g rest err hg] at h
        exact List.mem_cons_of_mem _ (genAux_keys pkg rest n v h)

theorem genAux_lookup_not_mem {α : Type} (pkg : String) :
    ∀ (ds : List (String × Diag α)) (n : String),
      n ∉ ds.map Prod.fst →
      ((generate_diagnoses_aux pkg ds).1).lookup n = none := by
  intro ds n h
  cases hl : ((generate_diagnoses_aux pkg ds).1).lookup n with
  | none => rfl
  | some v =>
      exact absurd (genAux_keys pkg ds n v (mem_of_lookup_eq_some _ n v hl)) h

theorem genAux_lookup_error {α : Type} (pkg : String) :
    ∀ (ds : List (String × Diag α)), (ds.map Prod.fst).Nodup →
      ∀ (n : String) (f : Diag α) (e : String), (n, f) ∈ ds →
        f pkg = Except.error e →
        ((generate_diagnoses_aux pkg ds).1).lookup n = none
  | [], _, n, f, e, hmem, _ => by simp at hmem
  | (m, g) :: rest, hnd, n, f, e, hmem, herr => by
    rw [List.map_cons, List.nodup_cons] at hnd
    have hm : m ∉ rest.map Prod.fst := hnd.1
    have hnd' : (rest.map Prod.fst).Nodup := hnd.2
    rcases List.mem_cons.mp hmem with hh | hh
    · rw [Prod.mk.injEq] at hh
      obtain ⟨h1, h2⟩ := hh
      subst h1; subst h2
      rw [genAux_cons_error pkg n f rest e herr]
      exact genAux_lookup_not_mem pkg rest n hm
    · have hmn : n ≠ m := by
        intro hnm
        exact hm (hnm ▸ List.mem_map_of_mem Prod.fst hh)
      cases hg : g pkg with
      | ok w =>
          rw [genAux_cons_ok pkg m g rest w hg]
          show ((m, w) :: (generate_diagnoses_aux pkg rest).1).lookup n = none
          rw [lookup_cons_of_ne m n w _ hmn]
          exact genAux_lookup_error pkg rest hnd' n f e hh herr
      | error err =>
          rw [genAux_cons_error pkg m g rest err hg]
          exact genAux_lookup_error pkg rest hnd' n f e hh herr

theorem genAux_mem_ok {α : Type} (pkg : String) :
    ∀ (ds : List (String × Diag α)) (m : String) (g : Diag α) (v : α),
      (m, g) ∈ ds → g pkg = Except.ok v →
      (m, v) ∈ (generate_diagnoses_aux pkg ds).1
  | [], m, g, v, hmem, _ => by simp at hmem
  | (m', g') :: rest, m, g, v, hmem, hok => by
    rcases List.mem_cons.mp hmem with hh | hh
    · rw [Prod.mk.injEq] at hh
      obtain ⟨h1, h2⟩ := hh
      subst h1; subst h2
      rw [genAux_cons_ok pkg m g rest v hok]
      exact List.mem_cons_self _ _
    · cases hg : g' pkg with
      | ok w =>
          rw [genAux_cons_ok pkg m' g' rest w hg]
          exact List.mem_cons_of_mem _ (genAux_mem_ok pkg rest m g v hh hok)
      | error err =>
          rw [genAux_cons_error pkg m' g' rest err hg]
          exact genAux_mem_ok pkg rest m g v hh hok

theorem genAux_runDiag_mem {α : Type} (pkg : String) :
    ∀ (ds : List (String × Diag α)) (m : String) (g : Diag α),
      (m, g) ∈ ds →
      Event.runDiag pkg m ∈ (generate_diagnoses_aux pkg ds).2
  | [], m, g, hmem => by simp at hmem
  | (m', g') :: rest, m, g, hmem => by
    rcases List.mem_cons.mp hmem with hh | hh
    · rw [Prod.mk.injEq] at hh
      cases hg : g' pkg with
      | ok w => rw [genAux_cons_ok pkg m' g' rest w hg, hh.1]
                exact List.mem_cons_self _ _
      | error err => rw [genAux_cons_error pkg m' g' rest err hg, hh.1]
                     exact List.mem_cons_self _ _
    · cases hg : g' pkg with
      | ok w =>
          rw [genAux_cons_ok pkg m' g' rest w hg]
          exact List.mem_cons_of_mem _ (genAux_runDiag_mem pkg rest m g hh)
      | error err =>
          rw [genAux_cons_error pkg m' g' rest err hg]
          exact List.mem_cons_of_mem _
            (List.mem_cons_of_mem _ (genAux_runDiag_mem pkg rest m g hh))

theorem genAux_logError_mem {α : Type} (pkg : String) :
    ∀ (ds : List (String × Diag α)) (n : String) (f : Diag α) (e : String),
      (n, f) ∈ ds → f pkg = Except.error e →
      Event.logError pkg n e ∈ (generate_diagnoses_aux pkg ds).2
  | [], n, f, e, hmem, _ => by simp at hmem
  | (m', g') :: rest, n, f, e, hmem, herr => by
    rcases List.mem_cons.mp hmem with hh | hh
    · rw [Prod.mk.injEq] at hh
      obtain ⟨h1, h2⟩ := hh
      subst h1; subst h2
      rw [genAux_cons_error pkg n f rest e herr]
      exact List.mem_cons_of_mem _ (List.mem_cons_self _ _)
    · cases hg : g' pkg with
      | ok w =>
          rw [genAux_cons_ok pkg m' g' rest w hg]
          exact List.mem_cons_of_mem _
            (genAux_logError_mem pkg rest n f e hh herr)
      | error err =>
          rw [genAux_cons_error pkg m' g' rest err hg]
          exact List.mem_cons_of_mem _ (List.mem_cons_of_mem _
            (genAux_logError_mem pkg rest n f e hh herr))

theorem contains_eq_false_of_not_mem (env : List String) (pkg : String)
    (h : pkg ∉ env) : env.contains pkg = false := by
  simpa using h

theorem contains_eq_true_of_mem (env : List String) (pkg : String)
    (h : pkg ∈ env) : env.contains pkg = true := by
  simpa using h

theorem manage_installation_fresh {β : Type} (env : List String)
    (pkg : String) (body : β × List Event) (h : env.contains pkg = false) :
    manage_installation env pkg true body =
      (body.1,
       Event.checkInstalled pkg false :: Event.install pkg ::
         (body.2 ++ [Event.uninstall pkg]),
       (env ++ [pkg]).erase pkg) := by
  have h' : pkg ∉ env := by simpa using h
  simp [manage_installation, h, h']

theorem manage_installation_present {β : Type} (env : List String)
    (pkg : String) (body : β × List Event) (h : env.contains pkg = true) :
    manage_installation env pkg true body =
      (body.1, Event.checkInstalled pkg true :: body.2, env) := by
  have h' : pkg ∈ env := by simpa using h
  simp [manage_installation, h, h']

theorem manage_installation_off {β : Type} (env : List String)
    (pkg : String) (body : β × List Event) :
    manage_installation env pkg false body = (body.1, body.2, env) := by
  simp [manage_installation]

theorem diagnose_pkg_mapping {α : Type} (registry : List (String × Diag α))
    (env : List String) (pkg : String) (ds : List (String × Diag α))
    (flag : Bool) :
    diagnose_pkg registry env pkg (DiagnosesArg.mapping ds) flag =
      (Except.ok (pyDict
         (manage_installation env pkg flag (generate_diagnoses pkg ds)).1),
       (manage_installation env pkg flag (generate_diagnoses pkg ds)).2.1,
       (manage_installation env pkg flag (generate_diagnoses pkg ds)).2.2) :=
  rfl

theorem no_uninstall_of_diag (tr : List Event)
    (h : ∀ e ∈ tr, Event.isDiagEvent e = true) :
    tr.any Event.isUninstall = false := by
  rw [List.any_eq_false]
  intro e he
  have hd := h e he
  cases e <;> simp_all [Event.isDiagEvent, Event.isUninstall]

theorem no_touch_of_diag (tr : List Event)
    (h : ∀ e ∈ tr, Event.isDiagEvent e = true) :
    tr.any Event.touchesEnvironment = false := by
  rw [List.any_eq_false]
  intro e he
  have hd := h e he
  cases e <;> simp_all [Event.isDiagEvent, Event.touchesEnvironment]

theorem genAux_keys_sublist {α : Type} (pkg : String) :
    ∀ (ds : List (String × Diag α)),
      ((generate_diagnoses_aux pkg ds).1.map Prod.fst).Sublist
        (ds.map Prod.fst)
  | [] => by simp [generate_diagnoses_aux]
  | (m, g) :: rest => by
    cases hg : g pkg with
    | ok w =>
        rw [genAux_cons_ok pkg m g rest w hg]
        simp only [List.map_cons]
        exact List.Sublist.cons₂ _ (genAux_keys_sublist pkg rest)
    | error err =>
        rw [genAux_cons_error pkg m g rest err hg]
        simp only [List.map_cons]
        exact List.Sublist.cons _ (genAux_keys_sublist pkg rest)

/-! ## Claim theorems -/

/-- C1: for a package not installed before orchestration (with the install
flag at its default `true`), `diagnose_pkg` invokes `install` before any
diagnosis runs and invokes `uninstall` after the last diagnosis has run, on
every exit path — the events between the install and the uninstall are
exactly the diagnosis-run and error-logger events, which covers the case of
a diagnosis raising an exception, since such a diagnosis contributes its
`runDiag`/`logError` events to the middle segment like any other. -/
theorem diagnose_pkg_fresh_install_uninstall {α : Type}
    (registry : List (String × Diag α)) (env : List String) (pkg : String)
    (ds : List (String × Diag α)) (h : pkg ∉ env) :
    (diagnose_pkg registry env pkg (DiagnosesArg.mapping ds) true).2.1 =
      Event.checkInstalled pkg false :: Event.install pkg ::
        ((generate_diagnoses pkg ds).2 ++ [Event.uninstall pkg]) ∧
    ((generate_diagnoses pkg ds).2).all Event.isDiagEvent = true := by
  have hc : env.contains pkg = false := contains_eq_false_of_not_mem env pkg h
  constructor
  · rw [diagnose_pkg_mapping,
      manage_installation_fresh env pkg (generate_diagnoses pkg ds) hc]
  · rw [List.all_eq_true]
    intro e he
    exact genAux_trace_diag pkg (pyDict ds) e he

/-- C1 witness: a fresh environment and a diagnosis set whose second
diagnosis raises. -/
def dsW : List (String × Diag Nat) :=
  [(("ok1"), fun s => Except.ok s.length),
   (("bad"), fun _ => Except.error ("boom"))]

theorem diagnose_pkg_fresh_install_uninstall_witness :
    (("six") ∉ ([] : List String)) ∧
    ((diagnose_pkg ([] : List (String × Diag Nat)) [] ("six")
        (DiagnosesArg.mapping dsW) true).2.1 =
      Event.checkInstalled ("six") false :: Event.install ("six") ::
        ((generate_diagnoses ("six") dsW).2 ++ [Event.uninstall ("six")]) ∧
     ((generate_diagnoses ("six") dsW).2).all Event.isDiagEvent = true) :=
  ⟨by simp,
   diagnose_pkg_fresh_install_uninstall [] [] ("six") dsW (by simp)⟩

/-- C2: for every package name and resolved diagnosis mapping (with the
mapping's keys distinct, as they are for any Python dict), if one diagnosis
raises, its name is absent from the yielded result mapping, every other
diagnosis that succeeds still contributes its entry, every diagnosis is
still invoked (the batch is not stopped), and the error logger is invoked
with the package name, the diagnosis name and the error. -/
theorem generate_diagnoses_error_isolation {α : Type} (pkg : String)
    (ds : List (String × Diag α)) (hnd : (ds.map Prod.fst).Nodup)
    (n : String) (f : Diag α) (e : String) (hmem : (n, f) ∈ ds)
    (herr : f pkg = Except.error e) :
    ((generate_diagnoses pkg ds).1).lookup n = none ∧
    (pyDict ((generate_diagnoses pkg ds).1)).lookup n = none ∧
    (∀ (m : String) (g : Diag α) (v : α), (m, g) ∈ ds →
       g pkg = Except.ok v → (m, v) ∈ (generate_diagnoses pkg ds).1) ∧
    (∀ (m : String) (g : Diag α), (m, g) ∈ ds →
       Event.runDiag pkg m ∈ (generate_diagnoses pkg ds).2) ∧
    Event.logError pkg n e ∈ (generate_diagnoses pkg ds).2 := by
  have hpd : pyDict ds = ds := pyDict_of_nodup ds hnd
  have hgen : generate_diagnoses pkg ds = generate_diagnoses_aux pkg ds := by
    rw [generate_diagnoses, hpd]
  have hnd1 : ((generate_diagnoses pkg ds).1.map Prod.fst).Nodup := by
    rw [hgen]
    exact (genAux_keys_sublist pkg ds).nodup hnd
  have hres : pyDict ((generate_diagnoses pkg ds).1) =
      (generate_diagnoses pkg ds).1 :=
    pyDict_of_nodup _ hnd1
  rw [hres, hgen]
  exact ⟨genAux_lookup_error pkg ds hnd n f e hmem herr,
    genAux_lookup_error pkg ds hnd n f e hmem herr,
    fun m g v hm ho => genAux_mem_ok pkg ds m g v hm ho,
    fun m g hm => genAux_runDiag_mem pkg ds m g hm,
    genAux_logError_mem pkg ds n f e hmem herr⟩

/-- C2 witness: a two-diagnosis mapping whose second diagnosis raises. -/
theorem generate_diagnoses_error_isolation_witness :
    ((generate_diagnoses ("six") dsW).1).lookup ("bad") = none ∧
    (pyDict ((generate_diagnoses ("six") dsW).1)).lookup ("bad") = none ∧
    (∀ (m : String) (g : Diag Nat) (v : Nat), (m, g) ∈ dsW →
       g ("six") = Except.ok v → (m, v) ∈ (generate_diagnoses ("six") dsW).1) ∧
    (∀ (m : String) (g : Diag Nat), (m, g) ∈ dsW →
       Event.runDiag ("six") m ∈ (generate_diagnoses ("six") dsW).2) ∧
    Event.logError ("six") ("bad") ("boom") ∈
      (generate_diagnoses ("six") dsW).2 :=
  generate_diagnoses_error_isolation ("six") dsW (by simp [dsW]) ("bad")
    (fun _ => Except.error ("boom")) ("boom")
    (List.mem_cons_of_mem _ (List.mem_cons_self _ _)) rfl

/-- C3: for a package already installed before orchestration, `diagnose_pkg`
(with the install flag at its default `true`) never invokes `uninstall`,
whatever the diagnoses do, and the environment's installed state is left
unchanged. -/
theorem diagnose_pkg_installed_no_uninstall {α : Type}
    (registry : List (String × Diag α)) (env : List String) (pkg : String)
    (ds : List (String × Diag α)) (h : pkg ∈ env) :
    ((diagnose_pkg registry env pkg (DiagnosesArg.mapping ds) true).2.1).any
      Event.isUninstall = false ∧
    (diagnose_pkg registry env pkg (DiagnosesArg.mapping ds) true).2.2 =
      env := by
  have hc : env.contains pkg = true := contains_eq_true_of_mem env pkg h
  rw [diagnose_pkg_mapping,
    manage_installation_present env pkg (generate_diagnoses pkg ds) hc]
  refine ⟨?_, rfl⟩
  show (Event.checkInstalled pkg true ::
    (generate_diagnoses pkg ds).2).any Event.isUninstall = false
  rw [List.any_cons]
  have h2 : ((generate_diagnoses pkg ds).2).any Event.isUninstall = false :=
    no_uninstall_of_diag _ (fun e he => genAux_trace_diag pkg (pyDict ds) e he)
  rw [h2]
  rfl

/-- C3 witness: a package present in the environment, with a raising
diagnosis among the diagnoses. -/
theorem diagnose_pkg_installed_no_uninstall_witness :
    (("six") ∈ [("six")]) ∧
    (((diagnose_pkg ([] : List (String × Diag Nat)) [("six")] ("six")
         (DiagnosesArg.mapping dsW) true).2.1).any Event.isUninstall = false ∧
     (diagnose_pkg ([] : List (String × Diag Nat)) [("six")] ("six")
        (DiagnosesArg.mapping dsW) true).2.2 = [("six")]) :=
  ⟨List.mem_cons_self _ _,
   diagnose_pkg_installed_no_uninstall [] [("six")] ("six") dsW
     (List.mem_cons_self _ _)⟩

/-- C10: with the install flag set to `false`, `diagnose_pkg` performs no
installed-status check, no install and no uninstall — the trace is exactly
the diagnosis trace, no event in it touches the environment's installed
state, and the environment comes back unchanged. -/
theorem diagnose_pkg_no_install_flag {α : Type}
    (registry : List (String × Diag α)) (env : List String) (pkg : String)
    (ds : List (String × Diag α)) :
    diagnose_pkg registry env pkg (DiagnosesArg.mapping ds) false =
      (Except.ok (pyDict ((generate_diagnoses pkg ds).1)),
       (generate_diagnoses pkg ds).2, env) ∧
    ((diagnose_pkg registry env pkg (DiagnosesArg.mapping ds) false).2.1).any
      Event.touchesEnvironment = false := by
  have h1 : diagnose_pkg registry env pkg (DiagnosesArg.mapping ds) false =
      (Except.ok (pyDict ((generate_diagnoses pkg ds).1)),
       (generate_diagnoses pkg ds).2, env) := by
    rw [diagnose_pkg_mapping,
      manage_installation_off env pkg (generate_diagnoses pkg ds)]
  refine ⟨h1, ?_⟩
  rw [h1]
  exact no_touch_of_diag _
    (fun e he => genAux_trace_diag pkg (pyDict ds) e he)

theorem except_map_error_iff {ε σ β : Type} (f : σ → β) (r : Except ε σ)
    (e : ε) : r.map f = Except.error e ↔ r = Except.error e := by
  cases r <;> simp [Except.map]

theorem resolve_name_cons_some {α : Type} (registry : List (String × Diag α))
    (s : String) (f : Diag α) (rest : List (DiagSpec α))
    (h : registry.lookup s = some f) :
    resolve_string_diagnoses registry (DiagSpec.name s :: rest) =
      (resolve_string_diagnoses registry rest).map (fun l => (s, f) :: l) := by
  simp [resolve_string_diagnoses, h]

theorem resolve_name_cons_none {α : Type} (registry : List (String × Diag α))
    (s : String) (rest : List (DiagSpec α)) (h : registry.lookup s = none) :
    resolve_string_diagnoses registry (DiagSpec.name s :: rest) =
      Except.error ("Unknown diagnosis name: " ++ s) := by
  simp [resolve_string_diagnoses, h]

theorem resolve_pair_cons {α : Type} (registry : List (String × Diag α))
    (s : String) (f : Diag α) (rest : List (DiagSpec α)) :
    resolve_string_diagnoses registry (DiagSpec.pair s f :: rest) =
      (resolve_string_diagnoses registry rest).map (fun l => (s, f) :: l) :=
  rfl

theorem bareNames_items_name_cons {α : Type} (s : String)
    (rest : List (DiagSpec α)) :
    (DiagnosesArg.items (DiagSpec.name s :: rest)).bareNames =
      s :: (DiagnosesArg.items rest).bareNames := rfl

theorem bareNames_items_pair_cons {α : Type} (s : String) (f : Diag α)
    (rest : List (DiagSpec α)) :
    (DiagnosesArg.items (DiagSpec.pair s f :: rest)).bareNames =
      (DiagnosesArg.items rest).bareNames := rfl

theorem resolve_mapping_eq {α : Type} (registry : List (String × Diag α))
    (m : List (String × Diag α)) :
    _resolve_diagnoses registry (DiagnosesArg.mapping m) = Except.ok m := rfl

theorem resolve_single_eq {α : Type} (registry : List (String × Diag α))
    (s : String) :
    _resolve_diagnoses registry (DiagnosesArg.single s) =
      (resolve_string_diagnoses registry [DiagSpec.name s]).map pyDict := rfl

theorem resolve_items_eq {α : Type} (registry : List (String × Diag α))
    (l : List (DiagSpec α)) :
    _resolve_diagnoses registry (DiagnosesArg.items l) =
      (resolve_string_diagnoses registry l).map pyDict := rfl

theorem resolve_string_error_char {α : Type}
    (registry : List (String × Diag α)) :
    ∀ (l : List (DiagSpec α)) (e : String),
      resolve_string_diagnoses registry l = Except.error e →
      ∃ s, s ∈ (DiagnosesArg.items l).bareNames ∧ registry.lookup s = none ∧
        e = ("Unknown diagnosis name: " ++ s)
  | [], e, h => by simp [resolve_string_diagnoses] at h
  | DiagSpec.name s :: rest, e, h => by
    cases hl : registry.lookup s with
    | some f =>
        rw [resolve_name_cons_some registry s f rest hl,
          except_map_error_iff] at h
        obtain ⟨t, ht1, ht2, ht3⟩ := resolve_string_error_char registry rest e h
        exact ⟨t, by
          rw [bareNames_items_name_cons]
          exact List.mem_cons_of_mem _ ht1, ht2, ht3⟩
    | none =>
        rw [resolve_name_cons_none registry s rest hl] at h
        simp only [Except.error.injEq] at h
        exact ⟨s, by
          rw [bareNames_items_name_cons]
          exact List.mem_cons_self _ _, hl, h.symm⟩
  | DiagSpec.pair s f :: rest, e, h => by
    rw [resolve_pair_cons registry s f rest, except_map_error_iff] at h
    obtain ⟨t, ht1, ht2, ht3⟩ := resolve_string_error_char registry rest e h
    exact ⟨t, by rw [bareNames_items_pair_cons]; exact ht1, ht2, ht3⟩

theorem resolve_string_error_exists {α : Type}
    (registry : List (String × Diag α)) :
    ∀ (l : List (DiagSpec α)) (s : String),
      s ∈ (DiagnosesArg.items l).bareNames → registry.lookup s = none →
      ∃ e, resolve_string_diagnoses registry l = Except.error e
  | [], s, hmem, _ => by simp [DiagnosesArg.bareNames] at hmem
  | DiagSpec.name t :: rest, s, hmem, hnone => by
    cases hl : registry.lookup t with
    | none => exact ⟨_, resolve_name_cons_none registry t rest hl⟩
    | some f =>
        rw [bareNames_items_name_cons] at hmem
        rcases List.mem_cons.mp hmem with hh | hh
        · subst hh
          rw [hl] at hnone
          cases hnone
        · obtain ⟨e, he⟩ := resolve_string_error_exists registry rest s hh hnone
          refine ⟨e, ?_⟩
          rw [resolve_name_cons_some registry t f rest hl, he]
          rfl
  | DiagSpec.pair t f :: rest, s, hmem, hnone => by
    rw [bareNames_items_pair_cons] at hmem
    obtain ⟨e, he⟩ := resolve_string_error_exists registry rest s hmem hnone
    refine ⟨e, ?_⟩
    rw [resolve_pair_cons registry t f rest, he]
    rfl

theorem resolve_string_all_registered {α : Type}
    (registry : List (String × Diag α)) :
    ∀ (D : List String), (∀ s ∈ D, (registry.lookup s).isSome = true) →
      ∃ l, resolve_string_diagnoses registry (D.map DiagSpec.name) =
          Except.ok l ∧ l.map Prod.fst = D
  | [], _ => ⟨[], rfl, rfl⟩
  | s :: D, h => by
    have hs := h s (List.mem_cons_self _ _)
    obtain ⟨f, hf⟩ := Option.isSome_iff_exists.mp hs
    obtain ⟨l, hl, hkeys⟩ := resolve_string_all_registered registry D
      (fun t ht => h t (List.mem_cons_of_mem _ ht))
    refine ⟨(s, f) :: l, ?_, ?_⟩
    · rw [List.map_cons, resolve_name_cons_some registry s f _ hf, hl]
      rfl
    · rw [List.map_cons, hkeys]

/-- C4: `_resolve_diagnoses` raises the unknown-name error iff at least one
bare name string in its input is absent from the registry; the error message
names the offending string; and in `diagnose_pkgs` this error is raised
before any package is touched (the trace of the run is empty and the
environment unchanged). -/
theorem resolve_diagnoses_unknown_name {α : Type}
    (registry : List (String × Diag α)) (arg : DiagnosesArg α) :
    ((∃ e, _resolve_diagnoses registry arg = Except.error e) ↔
      ∃ s ∈ arg.bareNames, registry.lookup s = none) ∧
    (∀ e, _resolve_diagnoses registry arg = Except.error e →
      ∃ s ∈ arg.bareNames, registry.lookup s = none ∧
        e = ("Unknown diagnosis name: " ++ s)) ∧
    (∀ (fs : List (String × String)) (env : List String) (pkgs : PkgsArg)
       (e : String), _resolve_diagnoses registry arg = Except.error e →
      diagnose_pkgs registry fs env pkgs arg =
        (Except.error e, [], env)) := by
  have key : ∀ e, _resolve_diagnoses registry arg = Except.error e →
      ∃ s ∈ arg.bareNames, registry.lookup s = none ∧
        e = ("Unknown diagnosis name: " ++ s) := by
    intro e h
    cases arg with
    | mapping m => simp [resolve_mapping_eq] at h
    | single t =>
        rw [resolve_single_eq, except_map_error_iff] at h
        obtain ⟨s, h1, h2, h3⟩ := resolve_string_error_char registry _ e h
        refine ⟨s, ?_, h2, h3⟩
        simpa [DiagnosesArg.bareNames] using h1
    | items l =>
        rw [resolve_items_eq, except_map_error_iff] at h
        obtain ⟨s, h1, h2, h3⟩ := resolve_string_error_char registry l e h
        exact ⟨s, h1, h2, h3⟩
  have back : (∃ s ∈ arg.bareNames, registry.lookup s = none) →
      ∃ e, _resolve_diagnoses registry arg = Except.error e := by
    rintro ⟨s, hmem, hnone⟩
    cases arg with
    | mapping m => simp [DiagnosesArg.bareNames] at hmem
    | single t =>
        have hm : s ∈ (DiagnosesArg.items
            [DiagSpec.name (α := α) t]).bareNames := by
          simpa [DiagnosesArg.bareNames] using hmem
        obtain ⟨e, he⟩ := resolve_string_error_exists registry _ s hm hnone
        refine ⟨e, ?_⟩
        rw [resolve_single_eq, he]
        rfl
    | items l =>
        obtain ⟨e, he⟩ := resolve_string_error_exists registry l s hmem hnone
        refine ⟨e, ?_⟩
        rw [resolve_items_eq, he]
        rfl
  refine ⟨⟨?_, back⟩, key, ?_⟩
  · rintro ⟨e, he⟩
    obtain ⟨s, h1, h2, _⟩ := key e he
    exact ⟨s, h1, h2⟩
  · intro fs env pkgs e h
    simp [diagnose_pkgs, h]

/-- C4 and C5 witnesses use this two-entry registry. -/
def registry1 : List (String × Diag Nat) :=
  [(("json_info"), fun _ => Except.ok 0),
   (("all_json_info"), fun _ => Except.ok 1)]

theorem resolve_diagnoses_unknown_name_witness :
    _resolve_diagnoses registry1
      (DiagnosesArg.items [DiagSpec.name ("json_info"),
        DiagSpec.name ("bogus_name")]) =
      Except.error ("Unknown diagnosis name: bogus_name") ∧
    diagnose_pkgs registry1 [] [] (PkgsArg.list [("six")])
      (DiagnosesArg.items [DiagSpec.name ("json_info"),
        DiagSpec.name ("bogus_name")]) =
      (Except.error ("Unknown diagnosis name: bogus_name"), [], []) :=
  ⟨rfl,
   (resolve_diagnoses_unknown_name registry1
     (DiagnosesArg.items [DiagSpec.name ("json_info"),
       DiagSpec.name ("bogus_name")])).2.2 [] [] (PkgsArg.list [("six")])
     ("Unknown diagnosis name: bogus_name") rfl⟩

/-- C5: for a list of pairwise-distinct registered diagnosis names,
resolution succeeds and returns a mapping with exactly one entry per name,
whose key order equals the input order. -/
theorem resolve_diagnoses_order {α : Type}
    (registry : List (String × Diag α)) (D : List String)
    (hreg : ∀ s ∈ D, (registry.lookup s).isSome = true) (hnd : D.Nodup) :
    ∃ l, _resolve_diagnoses registry
        (DiagnosesArg.items (D.map DiagSpec.name)) = Except.ok l ∧
      l.map Prod.fst = D ∧ l.length = D.length := by
  obtain ⟨l, hl, hkeys⟩ := resolve_string_all_registered registry D hreg
  have hnodup : (l.map Prod.fst).Nodup := by rw [hkeys]; exact hnd
  refine ⟨l, ?_, hkeys, ?_⟩
  · rw [resolve_items_eq, hl]
    show Except.ok (pyDict l) = Except.ok l
    rw [pyDict_of_nodup l hnodup]
  · calc l.length = (l.map Prod.fst).length := (List.length_map _ _).symm
      _ = D.length := by rw [hkeys]

theorem resolve_diagnoses_order_witness :
    ∃ l, _resolve_diagnoses registry1
        (DiagnosesArg.items
          ([("all_json_info"), ("json_info")].map DiagSpec.name)) =
        Except.ok l ∧
      l.map Prod.fst = [("all_json_info"), ("json_info")] ∧
      l.length = [("all_json_info"), ("json_info")].length :=
  resolve_diagnoses_order registry1 [("all_json_info"), ("json_info")]
    (by decide) (by decide)

theorem readlinesAux_join :
    ∀ (cs acc : List Char),
      ((readlinesAux cs acc).map String.toList).flatten = acc.reverse ++ cs
  | [], acc => by
    cases acc with
    | nil => simp [readlinesAux]
    | cons a as => simp [readlinesAux, toList_mk]
  | c :: cs, acc => by
    cases hc : (c == '\n') with
    | true =>
        have h1 := readlinesAux_join cs []
        simp only [readlinesAux, hc, if_true]
        simp [toList_mk, h1]
    | false =>
        have h1 := readlinesAux_join cs (c :: acc)
        simp only [readlinesAux, hc]
        simpa using h1

theorem readlinesAux_ne_nil :
    ∀ (cs acc : List Char) (line : String), line ∈ readlinesAux cs acc →
      line.toList ≠ []
  | [], acc, line, hmem => by
    cases acc with
    | nil => simp [readlinesAux] at hmem
    | cons a as =>
        simp only [readlinesAux, List.isEmpty_cons, if_neg, Bool.false_eq_true,
          not_false_iff, List.mem_singleton] at hmem
        subst hmem
        simp [toList_mk]
  | c :: cs, acc, line, hmem => by
    cases hc : (c == '\n') with
    | true =>
        rw [readlinesAux] at hmem
        rw [hc] at hmem
        simp only [if_true, List.mem_cons] at hmem
        rcases hmem with hmem | hmem
        · subst hmem
          simp [toList_mk]
        · exact readlinesAux_ne_nil cs [] line hmem
    | false =>
        rw [readlinesAux] at hmem
        rw [hc] at hmem
        simp only [Bool.false_eq_true, if_false] at hmem
        exact readlinesAux_ne_nil cs (c :: acc) line hmem

theorem pyReadlines_lines_ne_empty (content : String) :
    ∀ line ∈ pyReadlines content, line ≠ "" := by
  intro line h hline
  have hne := readlinesAux_ne_nil content.toList [] line h
  rw [hline] at hne
  exact hne rfl

theorem splitWsAux_pieces :
    ∀ (cs acc : List Char), acc.all (fun c => !isPySpace c) = true →
      ∀ piece ∈ splitWsAux cs acc,
        piece ≠ [] ∧ piece.all (fun c => !isPySpace c) = true
  | [], acc, hacc, piece, hmem => by
    cases acc with
    | nil => simp [splitWsAux] at hmem
    | cons a as =>
        simp only [splitWsAux, List.isEmpty_cons, if_neg, Bool.false_eq_true,
          not_false_iff, List.mem_singleton] at hmem
        subst hmem
        refine ⟨by simp, ?_⟩
        rw [List.all_eq_true] at hacc ⊢
        intro x hx
        exact hacc x (List.mem_reverse.mp hx)
  | c :: cs, acc, hacc, piece, hmem => by
    cases hc : isPySpace c with
    | true =>
        rw [splitWsAux] at hmem
        rw [hc] at hmem
        simp only [if_true] at hmem
        cases acc with
        | nil =>
            simp only [List.isEmpty_nil, if_true] at hmem
            exact splitWsAux_pieces cs [] rfl piece hmem
        | cons a as =>
            simp only [List.isEmpty_cons, if_neg, Bool.false_eq_true,
              not_false_iff, List.mem_cons] at hmem
            rcases hmem with hmem | hmem
            · subst hmem
              refine ⟨by simp, ?_⟩
              rw [List.all_eq_true] at hacc ⊢
              intro x hx
              exact hacc x (List.mem_reverse.mp hx)
            · exact splitWsAux_pieces cs [] rfl piece hmem
    | false =>
        rw [splitWsAux] at hmem
        rw [hc] at hmem
        simp only [Bool.false_eq_true, if_false] at hmem
        have hacc' : (c :: acc).all (fun x => !isPySpace x) = true := by
          rw [List.all_cons, hc]
          simpa using hacc
        exact splitWsAux_pieces cs (c :: acc) hacc' piece hmem

theorem pyWhitespaceSplit_pieces (s : String) :
    ∀ t ∈ pyWhitespaceSplit s,
      t ≠ "" ∧ t.toList.all (fun c => !isPySpace c) = true := by
  intro t ht
  obtain ⟨piece, hp, hq⟩ := List.mem_map.mp ht
  obtain ⟨h1, h2⟩ := splitWsAux_pieces s.toList [] rfl piece hp
  subst hq
  refine ⟨?_, by simpa [toList_mk] using h2⟩
  intro h0
  exact h1 (by simpa [toList_mk] using congrArg String.toList h0)

/-- C8: `_resolve_packages` returns a literal list unchanged; for a string
that is not an existing file path it returns the whitespace-split pieces of
the string (all nonempty and whitespace-free); for a string naming an
existing file it returns one entry per line of the file's content, each
entry being that line text (lines keep their terminating newline;
concatenating the entries back yields the content and no entry is empty). -/
theorem resolve_packages_cases (fs : List (String × String)) :
    (∀ l, _resolve_packages fs (PkgsArg.list l) = l) ∧
    (∀ s, fs.lookup s = none →
      _resolve_packages fs (PkgsArg.str s) = pyWhitespaceSplit s) ∧
    (∀ s content, fs.lookup s = some content →
      _resolve_packages fs (PkgsArg.str s) = pyReadlines content) ∧
    (∀ s t, t ∈ pyWhitespaceSplit s →
      t ≠ "" ∧ t.toList.all (fun c => !isPySpace c) = true) ∧
    (∀ content, ((pyReadlines content).map String.toList).flatten =
      content.toList) ∧
    (∀ content line, line ∈ pyReadlines content → line ≠ "") := by
  refine ⟨fun l => rfl, ?_, ?_, ?_, ?_, ?_⟩
  · intro s h
    simp [_resolve_packages, h]
  · intro s content h
    simp [_resolve_packages, h]
  · intro s t ht
    exact pyWhitespaceSplit_pieces s t ht
  · intro content
    simpa using readlinesAux_join content.toList []
  · intro content line h
    exact pyReadlines_lines_ne_empty content line h

/-- C8 witness file system: one requirements file. -/
def fs1 : List (String × String) := [(("reqs.txt"), ("six\nnumpy\n"))]

theorem resolve_packages_cases_witness :
    _resolve_packages fs1 (PkgsArg.list [("six")]) = [("six")] ∧
    (fs1.lookup ("pkg one") = none ∧
     _resolve_packages fs1 (PkgsArg.str ("pkg one")) =
       pyWhitespaceSplit ("pkg one")) ∧
    (fs1.lookup ("reqs.txt") = some ("six\nnumpy\n") ∧
     _resolve_packages fs1 (PkgsArg.str ("reqs.txt")) =
       pyReadlines ("six\nnumpy\n")) ∧
    pyWhitespaceSplit ("pkg one") = [("pkg"), ("one")] ∧
    pyReadlines ("six\nnumpy\n") = [("six\n"), ("numpy\n")] :=
  ⟨(resolve_packages_cases fs1).1 [("six")],
   ⟨rfl, (resolve_packages_cases fs1).2.1 ("pkg one") rfl⟩,
   ⟨rfl, (resolve_packages_cases fs1).2.2.1 ("reqs.txt") ("six\nnumpy\n") rfl⟩,
   rfl, rfl⟩

/-- C9: `diagnose_pkgs(["six"], diagnoses={"length": len})` returns the
store `{"six": {"length": 3}}`: the mapping argument is used as-is, each
diagnosis is applied to the package name string, and the store is keyed by
the package name — whatever the registry, the file system and the
environment. -/
theorem diagnose_pkgs_six_length (registry : List (String × Diag Nat))
    (fs : List (String × String)) (env : List String) :
    (diagnose_pkgs registry fs env (PkgsArg.list [("six")])
      (DiagnosesArg.mapping
        [(("length"), fun s => Except.ok s.length)])).1 =
      Except.ok [(("six"), [(("length"), 3)])] := rfl

/-- C6 (amended): in `run_pkg_tests`, only the doctest sub-probe's failure
is caught with its sub-result omitted while the remaining sub-probes still
run; a unittest sub-probe failure is unguarded and propagates, skipping the
pytest sub-probe and aborting the diagnosis (unless it is the
`DistributionNotFound` that the outer handler converts into the absent
result `None`); a pytest sub-probe failure is caught only when it is a
`subprocess.CalledProcessError`, any other failure propagates. -/
theorem run_pkg_tests_error_paths {α : Type} (dv uv pv : α) (m : String) :
    (∀ e, run_pkg_tests (Except.ok ()) (Except.error e) (Except.ok uv)
        (Except.ok pv) =
      Except.ok (some [(("unittest_results"), uv),
        (("pytest_results"), pv)])) ∧
    run_pkg_tests (Except.ok ()) (Except.ok dv)
        (Except.error (PyExc.exc m)) (Except.ok pv) =
      Except.error (PyExc.exc m) ∧
    run_pkg_tests (Except.ok ()) (Except.ok dv)
        (Except.error PyExc.distributionNotFound) (Except.ok pv) =
      Except.ok none ∧
    run_pkg_tests (Except.ok ()) (Except.ok dv) (Except.ok uv)
        (Except.error PyExc.calledProcessError) =
      Except.ok (some [(("doctest_results"), dv),
        (("unittest_results"), uv)]) ∧
    run_pkg_tests (Except.ok ()) (Except.ok dv) (Except.ok uv)
        (Except.error (PyExc.exc m)) = Except.error (PyExc.exc m) ∧
    run_pkg_tests (Except.error PyExc.distributionNotFound) (Except.ok dv)
        (Except.ok uv) (Except.ok pv) =
      Except.ok (none : Option (List (String × α))) :=
  ⟨fun _ => rfl, rfl, rfl, rfl, rfl, rfl⟩

/-- C6 counterexample: a unittest sub-probe failure that is a plain
`Exception` aborts `run_pkg_tests` (the pytest sub-probe never contributes
and no result dictionary is returned), contrary to the claim that any one
sub-probe's failure is caught with only that sub-result omitted. -/
theorem run_pkg_tests_unittest_aborts :
    run_pkg_tests (Except.ok ()) (Except.ok (1 : Nat))
        (Except.error (PyExc.exc ("boom"))) (Except.ok 2) =
      Except.error (PyExc.exc ("boom")) ∧
    run_pkg_tests (Except.ok ()) (Except.ok (1 : Nat))
        (Except.error (PyExc.exc ("boom"))) (Except.ok 2) ≠
      Except.ok (some [(("doctest_results"), 1),
        (("pytest_results"), 2)]) :=
  ⟨rfl, fun h => by
    rw [show run_pkg_tests (Except.ok ()) (Except.ok (1 : Nat))
        (Except.error (PyExc.exc ("boom"))) (Except.ok 2) =
      Except.error (PyExc.exc ("boom")) from rfl] at h
    exact Except.noConfusion h⟩

/-- C7 (amended): for a non-200 index response, the metadata fetch
`json_package_info` returns the empty dictionary rather than raising (the
non-200 condition is never raised past the fetch call), and the extractor
substitutes the absent marker for every requested field; but it then
applies `len` to the absent `releases` marker, so
`dflt_json_info_extractor` raises a `TypeError` instead of returning an
empty-metadata result (the orchestrator boundary later catches it). -/
theorem json_info_absent_package (response : HttpResponse)
    (h : response.status_code ≠ 200) :
    json_package_info response = PyVal.dict [] ∧
    paths_getter infoPaths (json_package_info response) =
      infoPaths.map (fun p => (p, PyVal.none)) ∧
    dflt_json_info_extractor response =
      Except.error ("TypeError: object has no len") := by
  have hb : (response.status_code == 200) = false := by
    rw [beq_eq_false_iff_ne]
    exact h
  have h1 : json_package_info response = PyVal.dict [] := by
    simp [json_package_info, hb]
  refine ⟨h1, ?_, ?_⟩
  · rw [h1]
    rfl
  · simp only [dflt_json_info_extractor, h1]
    rfl

/-- C7 counterexample response: the package is absent from the index. -/
def resp404 : HttpResponse := HttpResponse.mk 404 (PyVal.dict [])

/-- C7 counterexample: on a 404 response the fetch returns the empty
dictionary, but the metadata diagnosis raises a `TypeError` rather than
producing an empty-metadata result. -/
theorem json_info_extractor_raises_on_absent :
    json_package_info resp404 = PyVal.dict [] ∧
    dflt_json_info_extractor resp404 =
      Except.error ("TypeError: object has no len") := ⟨rfl, rfl⟩

theorem json_info_absent_package_witness :
    (404 : Nat) ≠ 200 ∧
    (json_package_info (HttpResponse.mk 404 PyVal.none) = PyVal.dict [] ∧
     paths_getter infoPaths
         (json_package_info (HttpResponse.mk 404 PyVal.none)) =
       infoPaths.map (fun p => (p, PyVal.none)) ∧
     dflt_json_info_extractor (HttpResponse.mk 404 PyVal.none) =
       Except.error ("TypeError: object has no len")) :=
  ⟨by decide,
   json_info_absent_package (HttpResponse.mk 404 PyVal.none) (by decide)⟩

end Pipoke
